import Mathlib

/-!
# Verification of the property-classification and graph-materialization pipeline

A shallow embedding, in Lean 4, of the core logic of the
EntityMatching-experimentation repository:

* `eda/neo4j_analyzer/enums.py` — the `PropertyType` classifier;
* `eda/neo4j_analyzer/property_analyzer.py` — the two profiling strategies
  (`analyze_dataframe` over a local table, `get_property_stats_cypher`
  pushing aggregation into the store);
* `eda/neo4j_analyzer/extractor.py` — the extraction-query builder;
* `eda/neo4j_analyzer/results_saver.py` — serialization round trip;
* `gds_property_projection/materialized_projection.py` and
  `projection_manager.py` — the merge-based materializer and the GDS
  named-view manager.

Numeric ratios are modelled as exact rationals (`Rat`); where the store's
IEEE-754 behaviour matters (division by zero yielding NaN/Infinity) a small
`CyFloat` type models it explicitly.  The graph store and analytics engine
are modelled as explicit state (finite sets of nodes/edges, an association
list of named views) with `MERGE` as insert-into-set, following the
documented semantics of Cypher `MERGE` and the GDS graph catalog.
-/

namespace EntityMatching

/-! ## `PropertyType` and the ratio classifier (`enums.py`) -/

/-- Classification of property uniqueness (`PropertyType` in `enums.py`). -/
inductive PropertyType where
  | UNIQUE
  | SEMI_UNIQUE
  | CATEGORICAL
  | HIGHLY_CATEGORICAL
deriving DecidableEq, Repr

/-- `PropertyType.from_unique_ratio` (`enums.py`): top-down threshold test.
The Python float literals `1.0`, `0.05`, `0.5` are modelled as the exact
rationals they denote. -/
def fromUniqueRatio (ratio : Rat) : PropertyType :=
  if ratio = 1 then .UNIQUE
  else if ratio < 1/20 then .HIGHLY_CATEGORICAL
  else if ratio < 1/2 then .CATEGORICAL
  else .SEMI_UNIQUE

/-! ## The local (extract-then-compute) strategy: `analyze_dataframe` -/

variable {α : Type} [DecidableEq α]

/-- One column of a pandas DataFrame: one optional cell per row
(`none` models a null / NaN cell). -/
abbrev Column (α : Type) := List (Option α)

/-- The non-null values of a column. -/
def nonNullValues (col : Column α) : List α := col.filterMap id

/-- `df[column].nunique()`: number of distinct non-null values. -/
def nunique (col : Column α) : Nat := (nonNullValues col).dedup.length

/-- `df[column].isna().sum()`: number of null cells. -/
def nullCount (col : Column α) : Nat := col.countP (·.isNone)

/-- `value_counts()` of a list: each distinct value paired with its
multiplicity. -/
def valueCounts (vals : List α) : List (α × Nat) :=
  vals.dedup.map (fun v => (v, vals.count v))

/-- Insert into a list sorted descending by count (second component). -/
def insertByCountDesc (x : α × Nat) : List (α × Nat) → List (α × Nat)
  | [] => [x]
  | y :: ys => if y.2 ≤ x.2 then x :: y :: ys else y :: insertByCountDesc x ys

/-- Sort a (value, count) list descending by count. -/
def sortByCountDesc : List (α × Nat) → List (α × Nat)
  | [] => []
  | x :: xs => insertByCountDesc x (sortByCountDesc xs)

/-- `value_counts().head(10)`: frequencies sorted descending, first ten. -/
def topTenValueCounts (vals : List α) : List (α × Nat) :=
  (sortByCountDesc (valueCounts vals)).take 10

/-- The per-column summary dictionary built by
`PropertyAnalyzer.analyze_dataframe`. -/
structure ColSummary (α : Type) where
  unique_values : Nat
  total_values : Nat
  unique_ratio : Rat
  type : PropertyType
  null_count : Nat
  sample_categorical_values : Option (List (α × Nat))
deriving DecidableEq, Repr

/-- The body of the per-column loop of `analyze_dataframe`. -/
def analyzeColumn (col : Column α) (total_nodes : Nat) : ColSummary α :=
  let unique_count := nunique col
  let unique_ratio : Rat := (unique_count : Rat) / (total_nodes : Rat)
  let prop_type := fromUniqueRatio unique_ratio
  let sample_values :=
    if prop_type = .CATEGORICAL ∨ prop_type = .HIGHLY_CATEGORICAL then
      some (topTenValueCounts (nonNullValues col))
    else none
  { unique_values := unique_count
    total_values := total_nodes
    unique_ratio := unique_ratio
    type := prop_type
    null_count := nullCount col
    sample_categorical_values := sample_values }

/-- A pandas DataFrame: a row count and named columns (each of length
`nrows` in a well-formed frame). -/
structure DataFrame (α : Type) where
  nrows : Nat
  cols : List (String × Column α)

/-- `df.empty`: true when either axis has length zero. -/
def DataFrame.isEmpty (df : DataFrame α) : Bool :=
  df.nrows == 0 || df.cols.isEmpty

/-- Well-formedness: every column has exactly `nrows` cells. -/
def DataFrame.WF (df : DataFrame α) : Prop :=
  ∀ c ∈ df.cols, c.2.length = df.nrows

/-- `PropertyAnalyzer.analyze_dataframe`: empty frame yields the empty
summary; otherwise one summary per column. -/
def analyzeDataframe (df : DataFrame α) : List (String × ColSummary α) :=
  if df.isEmpty then []
  else df.cols.map (fun c => (c.1, analyzeColumn c.2 df.nrows))

/-! ## The aggregate (in-store) strategy: `get_property_stats_cypher`

The store's float arithmetic is IEEE-754: `toFloat(0)/toFloat(0)` is NaN,
not an error.  `CyFloat` models the float values that can reach the
classifier from the store, and `CyFloat.beq`/`CyFloat.blt` model IEEE
comparison (NaN compares false with everything). -/

/-- A store-side float: a finite value (exact rational), NaN, or ±Infinity. -/
inductive CyFloat where
  | val (q : Rat)
  | nan
  | inf
  | ninf
deriving DecidableEq, Repr

/-- IEEE equality test (`==` on floats): NaN is equal to nothing. -/
def CyFloat.beq : CyFloat → CyFloat → Bool
  | .val a, .val b => a == b
  | .inf, .inf => true
  | .ninf, .ninf => true
  | _, _ => false

/-- IEEE strict less-than on floats: comparisons with NaN are false. -/
def CyFloat.blt : CyFloat → CyFloat → Bool
  | .val a, .val b => decide (a < b)
  | .val _, .inf => true
  | .ninf, .val _ => true
  | .ninf, .inf => true
  | _, _ => false

/-- Float division as the store computes it: division by zero yields
NaN (0/0) or ±Infinity, never an error. -/
def cyDiv (a b : Rat) : CyFloat :=
  if b = 0 then
    if a = 0 then .nan else if 0 < a then .inf else .ninf
  else .val (a / b)

/-- `PropertyType.from_unique_ratio` as invoked on the float the store
returned: the same threshold chain under IEEE comparison semantics. -/
def fromUniqueRatioF (ratio : CyFloat) : PropertyType :=
  if ratio.beq (.val 1) then .UNIQUE
  else if ratio.blt (.val (1/20)) then .HIGHLY_CATEGORICAL
  else if ratio.blt (.val (1/2)) then .CATEGORICAL
  else .SEMI_UNIQUE

/-- The summary dictionary built by
`PropertyAnalyzer.get_property_stats_cypher` (ratio is a store float). -/
structure CypherSummary (α : Type) where
  unique_values : Nat
  total_values : Nat
  unique_ratio : CyFloat
  type : PropertyType
  null_count : Nat
  sample_categorical_values : Option (List (α × Nat))
deriving DecidableEq, Repr

/-- `PropertyAnalyzer.get_property_stats_cypher`, with the store modelled
as executing the two aggregation queries over the label's column of
values for the property (`none` = property absent on that node).  The
first query computes `count(n)`, `count(DISTINCT n.prop)`,
`count(n) - count(n.prop)` and the float ratio; the second query (top-10
frequencies) is issued only for categorical types.  Returns the summary
together with the number of store requests issued. -/
def getPropertyStatsCypher (col : Column α) : CypherSummary α × Nat :=
  let total := col.length
  let unique_count := nunique col
  let null_count := total - (nonNullValues col).length
  let unique_ratio := cyDiv (unique_count : Rat) (total : Rat)
  let prop_type := fromUniqueRatioF unique_ratio
  if prop_type = .CATEGORICAL ∨ prop_type = .HIGHLY_CATEGORICAL then
    ({ unique_values := unique_count, total_values := total,
       unique_ratio := unique_ratio, type := prop_type,
       null_count := null_count,
       sample_categorical_values :=
         some (topTenValueCounts (nonNullValues col)) }, 2)
  else
    ({ unique_values := unique_count, total_values := total,
       unique_ratio := unique_ratio, type := prop_type,
       null_count := null_count,
       sample_categorical_values := none }, 1)

/-! ## The extraction-query builder (`extractor.py`) -/

/-- Python truthiness of an optional integer argument: `None` and `0`
are falsy. -/
def pyTruthy : Option Nat → Bool
  | none => false
  | some n => n != 0

/-- The shape of the query built by `DataExtractor._build_extraction_query`:
random-key-order-limit sampling, plain `LIMIT`, or a full scan. -/
inductive ExtractionQuery where
  | randomSample (label : String) (size : Nat)
  | firstN (label : String) (limit : Nat)
  | allNodes (label : String)
deriving DecidableEq, Repr

/-- `DataExtractor._build_extraction_query`: the guards mirror
`if sample_size and sample_size < total_count` / `elif limit and
limit < total_count` (Python truthiness included). -/
def buildExtractionQuery (label : String) (total_count : Nat)
    (limit sample_size : Option Nat) : ExtractionQuery :=
  if pyTruthy sample_size && decide (sample_size.getD 0 < total_count) then
    .randomSample label (sample_size.getD 0)
  else if pyTruthy limit && decide (limit.getD 0 < total_count) then
    .firstN label (limit.getD 0)
  else
    .allNodes label

/-! ## The materializer (`materialized_projection.py`)

The graph store's state is the set of `PropertyNode`s — identified by
(attribute-name, stringified value), per the `MERGE` key — and the set of
entity→PropertyNode `HAS` edges.  Cypher `MERGE` is modelled by its
documented semantics: insert the identified node/edge if absent,
otherwise match it (a set insertion). -/

/-- An entity of the source label: a stable id and its attribute bag
(values already stringified, as `toString(propValue)` does). -/
structure Entity where
  id : Nat
  props : List (String × String)
deriving DecidableEq, Repr

/-- The relevant store state: materialized PropertyNodes and HAS edges. -/
@[ext]
structure GraphState where
  propNodes : Finset (String × String)
  rels : Finset (Nat × String × String)
deriving DecidableEq

/-- Effect of the per-entity `MERGE` pair for one attribute: if the entity
has a non-null value, merge the PropertyNode and the HAS edge. -/
def mergeEntity (prop : String) (g : GraphState) (e : Entity) : GraphState :=
  match e.props.lookup prop with
  | none => g
  | some v => ⟨insert (prop, v) g.propNodes, insert (e.id, prop, v) g.rels⟩

/-- Effect of one attribute's write query in `create_property_nodes`:
every source entity with a non-null value for the attribute is merged. -/
def processProperty (g : GraphState) (prop : String) (entities : List Entity) :
    GraphState :=
  entities.foldl (mergeEntity prop) g

/-- State effect of `MaterializedPropertyProjection.create_property_nodes`:
the configured attributes are processed one at a time, in order. -/
def createPropertyNodes (g : GraphState) (props : List String)
    (entities : List Entity) : GraphState :=
  props.foldl (fun g' p => processProperty g' p entities) g

/-- One result row of an attribute's write query
(`props_created`, `rels_created`). -/
structure WriteRow where
  props_created : Nat
  rels_created : Nat
deriving DecidableEq, Repr

/-- The statistics loop of `create_property_nodes`, with the store's
`execute_write` modelled as a fallible call (`Except` = a raised driver
exception).  Mirrors the Python loop: each attribute in turn, `if result:`
takes the first row's counts, an exception propagates. -/
def propertyLoop (execWrite : String → Except String (List WriteRow)) :
    List String → Nat × Nat → Except String (Nat × Nat)
  | [], stats => .ok stats
  | p :: rest, stats =>
    match execWrite p with
    | .error e => .error e
    | .ok (r :: _) =>
        propertyLoop execWrite rest
          (stats.1 + r.props_created, stats.2 + r.rels_created)
    | .ok [] => propertyLoop execWrite rest stats

/-- `create_property_nodes` as the caller sees it: the loop started from
`{'properties_created': 0, 'relationships_created': 0}`. -/
def createPropertyNodesStats (execWrite : String → Except String (List WriteRow))
    (props : List String) : Except String (Nat × Nat) :=
  propertyLoop execWrite props (0, 0)

/-! ## The GDS graph catalog and the projection managers
(`projection_manager.py`, `materialized_projection.py`)

The engine keeps an association list of named views with their
node/relationship counts.  `gds.graph.drop` on a missing name raises an
error whose message contains "does not exist"; `gds.graph.project` on an
occupied name raises, otherwise registers the view. -/

/-- The analytics engine's graph catalog: declared views with their
(nodeCount, relationshipCount). -/
structure GdsEngine where
  views : List (String × Nat × Nat)
deriving DecidableEq, Repr

/-- The engine's error message for dropping a missing graph (the graph
name is not interpolated in the model; only the marker phrase matters). -/
def notFoundMsg : String := "Graph does not exist on this database."

/-- `CALL gds.graph.drop(name)`: removes the named view and yields its
name, or raises the not-found error. -/
def gdsGraphDrop (name : String) (e : GdsEngine) :
    Except String (GdsEngine × List String) :=
  if e.views.any (fun v => v.1 == name) then
    .ok (⟨e.views.filter (fun v => v.1 != name)⟩, [name])
  else .error notFoundMsg

/-- `CALL gds.graph.project(name, ...)`: registers the view with the new
definition's counts, or raises if the name is occupied. -/
def gdsGraphProject (name : String) (counts : Nat × Nat) (e : GdsEngine) :
    Except String (GdsEngine × List (String × Nat × Nat)) :=
  if e.views.any (fun v => v.1 == name) then
    .error "A graph with this name already exists."
  else .ok (⟨(name, counts) :: e.views⟩, [(name, counts)])

/-- `MaterializedPropertyProjection.drop_projection`: swallows every
engine error and reports success as a Bool. -/
def matDropProjection (name : String) (e : GdsEngine) : GdsEngine × Bool :=
  match gdsGraphDrop name e with
  | .ok (e', _) => (e', true)
  | .error _ => (e, false)

/-- `MaterializedPropertyProjection.create_gds_projection`: drops any
existing view under the configured name, then projects the new
definition (whose node/edge counts the engine reports). -/
def createGdsProjection (name : String) (counts : Nat × Nat) (e : GdsEngine) :
    Except String (GdsEngine × (String × Nat × Nat)) :=
  let dropped := matDropProjection name e
  match gdsGraphProject name counts dropped.1 with
  | .ok (e', row :: _) => .ok (e', row)
  | .ok (e', []) => .ok (e', (name, counts))
  | .error msg => .error msg

/-- `str(e).lower()`: per-character lowercasing of the error message. -/
def pyLower (s : String) : List Char := s.toList.map Char.toLower

/-- Does the character list start with `pat`? -/
def hasPre : List Char → List Char → Bool
  | _, [] => true
  | [], _ :: _ => false
  | c :: cs, p :: ps => (c == p) && hasPre cs ps

/-- Python substring containment (`pat in s`) over character lists. -/
def containsChars (pat : List Char) : List Char → Bool
  | [] => pat.isEmpty
  | c :: rest => hasPre (c :: rest) pat || containsChars pat rest

/-- The probe `"does not exist" in str(e).lower()` of `drop_projection`. -/
def isNotFoundError (msg : String) : Bool :=
  containsChars "does not exist".toList (pyLower msg)

/-- The `except` clause of `GDSPropertyProjectionManager.drop_projection`:
a "does not exist" engine error becomes `False`, anything else is
re-raised unmodified. -/
def handleDropError (msg : String) : Except String Bool :=
  if isNotFoundError msg then .ok false else .error msg

/-- `GDSPropertyProjectionManager.drop_projection`: `True` on a non-empty
result, `False` on an empty result or a not-found error, re-raise
otherwise. -/
def mgrDropProjection (name : String) (e : GdsEngine) :
    Except String (GdsEngine × Bool) :=
  match gdsGraphDrop name e with
  | .ok (e', rows) => .ok (e', !rows.isEmpty)
  | .error msg =>
    match handleDropError msg with
    | .ok b => .ok (e, b)
    | .error m => .error m

/-- `GDSPropertyProjectionManager.create_cypher_projection`: first
`self.drop_projection()`, then declare the Cypher projection. -/
def mgrCreateCypherProjection (name : String) (counts : Nat × Nat)
    (e : GdsEngine) : Except String (GdsEngine × (String × Nat × Nat)) :=
  match mgrDropProjection name e with
  | .error msg => .error msg
  | .ok (e', _) =>
    match gdsGraphProject name counts e' with
    | .ok (e'', row :: _) => .ok (e'', row)
    | .ok (e'', []) => .ok (e'', (name, counts))
    | .error msg => .error msg

/-- `CALL gds.graph.list()`: all declared views. -/
def listProjections (e : GdsEngine) : List (String × Nat × Nat) := e.views

/-- `GDSPropertyProjectionManager.get_projection_info`: the first listed
view carrying the configured name, if any. -/
def getProjectionInfo (name : String) (e : GdsEngine) :
    Option (String × Nat × Nat) :=
  (listProjections e).find? (fun v => v.1 == name)

/-! ## The results archive (`results_saver.py`)

Python values that can appear in a classification results table are
modelled by `PyVal` (floats as exact rationals: `json.dump`/`json.load`
round-trips every finite float exactly).  `_convert_to_serializable`
stringifies dictionary keys and turns tuples into lists; `json.dump`
renders to a JSON document (`Json`), `json.load` parses it back. -/

/-- A Python value as it occurs in analysis results and configurations. -/
inductive PyVal where
  | pnull : PyVal
  | pbool : Bool → PyVal
  | pint : Int → PyVal
  | pfloat : Rat → PyVal
  | pstr : String → PyVal
  | plist : List PyVal → PyVal
  | ptuple : List PyVal → PyVal
  | pdict : List (PyVal × PyVal) → PyVal

/-- Python `str()` as applied to dictionary keys by
`_convert_to_serializable`.  Faithful on the scalar keys that occur in
results tables (strings, ints, bools, `None`); the renderings of float
and container keys are stand-ins (container keys cannot occur in a
Python dict, and no theorem below depends on those cases). -/
def pyStr : PyVal → String
  | .pstr s => s
  | .pint n => toString n
  | .pbool b => if b then "True" else "False"
  | .pnull => "None"
  | .pfloat q => toString q
  | .plist _ => "[...]"
  | .ptuple _ => "(...)"
  | .pdict _ => "\x7b...\x7d"

mutual
/-- `ResultsSaver._convert_to_serializable`: stringify dict keys,
recurse into dicts and lists, turn tuples into lists, pass scalars
through. -/
def convertToSerializable : PyVal → PyVal
  | .pdict es => .pdict (convertEntries es)
  | .plist xs => .plist (convertList xs)
  | .ptuple xs => .plist (convertList xs)
  | x => x

def convertList : List PyVal → List PyVal
  | [] => []
  | x :: xs => convertToSerializable x :: convertList xs

def convertEntries : List (PyVal × PyVal) → List (PyVal × PyVal)
  | [] => []
  | (k, v) :: rest =>
    (PyVal.pstr (pyStr k), convertToSerializable v) :: convertEntries rest
end

/-- A JSON document as written by `json.dump` and read by `json.load`. -/
inductive Json where
  | jnull : Json
  | jbool : Bool → Json
  | jint : Int → Json
  | jfloat : Rat → Json
  | jstr : String → Json
  | jarr : List Json → Json
  | jobj : List (String × Json) → Json

/-- `json.dump`'s coercion of a dict key to a JSON object key: strings
pass through; int, bool and `None` keys are coerced; anything else
raises `TypeError` (`none`).  (Float-key coercion is not modelled; after
`_convert_to_serializable` every key is already a string.) -/
def jsonKeyStr : PyVal → Option String
  | .pstr s => some s
  | .pint n => some (toString n)
  | .pbool b => some (if b then "true" else "false")
  | .pnull => some "null"
  | _ => none

mutual
/-- `json.dump`: encode a Python value as a JSON document, or raise
`TypeError` (`none`) on an unencodable value. -/
def jsonDumps : PyVal → Option Json
  | .pnull => some .jnull
  | .pbool b => some (.jbool b)
  | .pint n => some (.jint n)
  | .pfloat q => some (.jfloat q)
  | .pstr s => some (.jstr s)
  | .plist xs => (dumpsList xs).map .jarr
  | .ptuple xs => (dumpsList xs).map .jarr
  | .pdict es => (dumpsEntries es).map .jobj

def dumpsList : List PyVal → Option (List Json)
  | [] => some []
  | x :: xs =>
    match jsonDumps x, dumpsList xs with
    | some j, some js => some (j :: js)
    | _, _ => none

def dumpsEntries : List (PyVal × PyVal) → Option (List (String × Json))
  | [] => some []
  | (k, v) :: rest =>
    match jsonKeyStr k, jsonDumps v, dumpsEntries rest with
    | some ks, some jv, some jrest => some ((ks, jv) :: jrest)
    | _, _, _ => none
end

mutual
/-- `json.load`: parse a JSON document back into Python values (object
keys become string keys; objects are modelled with distinct keys, as
`json.dump` of a Python dict produces). -/
def jsonLoads : Json → PyVal
  | .jnull => .pnull
  | .jbool b => .pbool b
  | .jint n => .pint n
  | .jfloat q => .pfloat q
  | .jstr s => .pstr s
  | .jarr xs => .plist (loadsList xs)
  | .jobj es => .pdict (loadsEntries es)

def loadsList : List Json → List PyVal
  | [] => []
  | x :: xs => jsonLoads x :: loadsList xs

def loadsEntries : List (String × Json) → List (PyVal × PyVal)
  | [] => []
  | (k, v) :: rest => (.pstr k, jsonLoads v) :: loadsEntries rest
end

/-- Is a dict key already a string? -/
def isStrKey : PyVal → Bool
  | .pstr _ => true
  | _ => false

/-- The stringified keys of a dict's entry list. -/
def dictKeyStrs (es : List (PyVal × PyVal)) : List String :=
  es.map (fun kv => pyStr kv.1)

mutual
/-- Values for which serialization is lossless: scalars, lists of such,
and dicts whose keys are distinct strings (no tuples — `json` writes a
tuple as an array, which reloads as a list; no non-string keys — they
are stringified on the way out). -/
def serOk : PyVal → Bool
  | .pnull => true
  | .pbool _ => true
  | .pint _ => true
  | .pfloat _ => true
  | .pstr _ => true
  | .plist xs => serOkList xs
  | .ptuple _ => false
  | .pdict es =>
    es.all (fun kv => isStrKey kv.1) &&
      ((dictKeyStrs es).dedup == dictKeyStrs es) && serOkEntries es

def serOkList : List PyVal → Bool
  | [] => true
  | x :: xs => serOk x && serOkList xs

def serOkEntries : List (PyVal × PyVal) → Bool
  | [] => true
  | (_, v) :: rest => serOk v && serOkEntries rest
end

/-- Look a string key up in a Python dict value. -/
def entriesLookup : List (PyVal × PyVal) → String → Option PyVal
  | [], _ => none
  | (PyVal.pstr k, v) :: rest, key =>
    if k = key then some v else entriesLookup rest key
  | _ :: rest, key => entriesLookup rest key

/-- `d[key]` on a loaded record. -/
def dictLookup : PyVal → String → Option PyVal
  | .pdict es, key => entriesLookup es key
  | _, _ => none

/-- `ResultsSaver.save_analysis_results`: wrap the results table with
metadata (timestamp and configuration), convert to serializable form and
encode as the JSON record written to disk. -/
def saveAnalysisResults (results config : PyVal) (timestamp : String) :
    Option Json :=
  jsonDumps (convertToSerializable (.pdict
    [(.pstr "metadata", .pdict
        [(.pstr "timestamp", .pstr timestamp), (.pstr "config", config)]),
     (.pstr "results", results)]))

/-- `ResultsSaver.load_analysis_results`: parse the written record. -/
def loadAnalysisResults (j : Json) : PyVal := jsonLoads j

/-- The composed round trip on one value: convert, dump, reload. -/
def dumpLoad (x : PyVal) : Option PyVal :=
  (jsonDumps (convertToSerializable x)).map jsonLoads

/-- The list-level round trip used for the inductive proof. -/
def dumpLoadList (xs : List PyVal) : Option (List PyVal) :=
  (dumpsList (convertList xs)).map loadsList

/-- The entry-level round trip used for the inductive proof. -/
def dumpLoadEntries (es : List (PyVal × PyVal)) :
    Option (List (PyVal × PyVal)) :=
  (dumpsEntries (convertEntries es)).map loadsEntries

/-! ## Concrete fixtures used by counterexamples and witnesses -/

/-- A store stub exercising `create_property_nodes` under failure:
attribute `"a"`'s batch write raises, every other attribute's write
succeeds with one result row. -/
def failingWrite : String → Except String (List WriteRow) :=
  fun p => if p == "a" then .error "boom" else .ok [⟨1, 1⟩]

/-- A classification results table whose categorical sample values are
keyed by an integer, as `value_counts().to_dict()` yields for a numeric
column. -/
def intKeyedResults : PyVal :=
  .pdict [(.pstr "Person", .pdict [(.pstr "age", .pdict
    [(.pstr "sample_categorical_values", .pdict [(.pint 1, .pint 5)])])])]

/-- What the archive round trip turns `intKeyedResults` into: the integer
sample key comes back as its decimal string. -/
def intKeyedResultsLoaded : PyVal :=
  .pdict [(.pstr "Person", .pdict [(.pstr "age", .pdict
    [(.pstr "sample_categorical_values", .pdict [(.pstr "1", .pint 5)])])])]

/-! # Theorems

One theorem per claim of the specification review, with supporting
lemmas.  Counterexamples are closed evaluations of the embedded code at
concrete inputs. -/

/-- C1: on the domain [0,1] of ratios, `from_unique_ratio` yields UNIQUE
exactly at ratio 1, HIGHLY_CATEGORICAL exactly below 0.05, CATEGORICAL
exactly on [0.05, 0.5), and SEMI_UNIQUE otherwise; in particular ratio
0.05 is CATEGORICAL, ratio 0.5 is SEMI_UNIQUE and ratio 0 is
HIGHLY_CATEGORICAL. -/
theorem fromUniqueRatio_classification (r : Rat) (h0 : 0 ≤ r) (h1 : r ≤ 1) :
    ((fromUniqueRatio r = .UNIQUE ↔ r = 1) ∧
     (fromUniqueRatio r = .HIGHLY_CATEGORICAL ↔ r < 1/20) ∧
     (fromUniqueRatio r = .CATEGORICAL ↔ 1/20 ≤ r ∧ r < 1/2) ∧
     (fromUniqueRatio r = .SEMI_UNIQUE ↔ 1/2 ≤ r ∧ r ≠ 1)) ∧
    fromUniqueRatio (1/20) = .CATEGORICAL ∧
    fromUniqueRatio (1/2) = .SEMI_UNIQUE ∧
    fromUniqueRatio 0 = .HIGHLY_CATEGORICAL := by
  refine ⟨?_, by norm_num [fromUniqueRatio], by norm_num [fromUniqueRatio],
    by norm_num [fromUniqueRatio]⟩
  unfold fromUniqueRatio
  split_ifs with ha hb hc <;> refine ⟨?_, ?_, ?_, ?_⟩ <;>
    simp_all <;> intros <;> linarith

/-- Witness for C1: the classifier instantiated at the in-range ratio
3/10, which the theorem places in CATEGORICAL. -/
theorem fromUniqueRatio_classification_witness :
    fromUniqueRatio (3/10) = .CATEGORICAL :=
  (fromUniqueRatio_classification (3/10) (by norm_num)
    (by norm_num)).1.2.2.1.mpr (by norm_num)

/-- The distinct non-null values of a column are at most its rows. -/
theorem nunique_le_length (col : Column α) : nunique col ≤ col.length :=
  le_trans (List.Sublist.length_le (List.dedup_sublist _))
    (List.length_filterMap_le _ _)

/-- Null and non-null cells of a column partition its rows. -/
theorem nullCount_add_nonNull (col : Column α) :
    nullCount col + col.countP (·.isSome) = col.length := by
  induction col with
  | nil => rfl
  | cons x xs ih =>
    cases x <;> simp [nullCount, List.countP_cons] at * <;> omega

/-- C2: every profile produced by `analyze_dataframe` over a well-formed
non-empty table comes from a column of the table and satisfies
`0 ≤ unique_values ≤ total_values`,
`null_count + (rows with a non-null value) = total_values`, a positive
`total_values` (the ratio is only computed for non-empty frames), and
`unique_ratio = unique_values / total_values`. -/
theorem analyzeDataframe_invariants (df : DataFrame α) (hwf : df.WF)
    (x : String × ColSummary α) (hx : x ∈ analyzeDataframe df) :
    ∃ col, (x.1, col) ∈ df.cols ∧ x.2 = analyzeColumn col df.nrows ∧
      x.2.unique_values ≤ x.2.total_values ∧
      x.2.null_count + col.countP (·.isSome) = x.2.total_values ∧
      0 < x.2.total_values ∧
      x.2.unique_ratio =
        (x.2.unique_values : Rat) / (x.2.total_values : Rat) := by
  unfold analyzeDataframe at hx
  split at hx
  · simp at hx
  · next hne =>
    obtain ⟨c, hc, rfl⟩ := List.mem_map.mp hx
    have hlen := hwf c hc
    have hpos : 0 < df.nrows := by
      simp [DataFrame.isEmpty] at hne
      omega
    refine ⟨c.2, by simpa using hc, rfl, ?_, ?_, hpos, rfl⟩
    · simpa [analyzeColumn] using hlen ▸ nunique_le_length c.2
    · simpa [analyzeColumn] using hlen ▸ nullCount_add_nonNull c.2

/-- Witness for C2: the invariants instantiated on a two-row one-column
table holding one value and one null. -/
theorem analyzeDataframe_invariants_witness :
    ∃ col, ("a", col) ∈
        (DataFrame.mk 2 [("a", [some (1:Nat), none])]).cols ∧
      analyzeColumn [some (1:Nat), none] 2 = analyzeColumn col 2 ∧
      (analyzeColumn [some (1:Nat), none] 2).unique_values ≤
        (analyzeColumn [some (1:Nat), none] 2).total_values ∧
      (analyzeColumn [some (1:Nat), none] 2).null_count +
          col.countP (·.isSome) =
        (analyzeColumn [some (1:Nat), none] 2).total_values ∧
      0 < (analyzeColumn [some (1:Nat), none] 2).total_values ∧
      (analyzeColumn [some (1:Nat), none] 2).unique_ratio =
        ((analyzeColumn [some (1:Nat), none] 2).unique_values : Rat) /
          ((analyzeColumn [some (1:Nat), none] 2).total_values : Rat) :=
  analyzeDataframe_invariants ⟨2, [("a", [some 1, none])]⟩
    (by intro c hc; simp only [List.mem_singleton] at hc; subst hc; rfl)
    ("a", analyzeColumn [some 1, none] 2)
    (by simp [analyzeDataframe, DataFrame.isEmpty])

/-- The top-10 frequency list never exceeds ten entries. -/
theorem topTenValueCounts_length_le (vals : List α) :
    (topTenValueCounts vals).length ≤ 10 :=
  List.length_take_le _ _

/-- C3: under both strategies the top-values field is non-null exactly
when the derived type is CATEGORICAL or HIGHLY_CATEGORICAL and carries at
most ten (value, count) entries; the aggregate strategy issues its second
store request exactly in that case, and a UNIQUE or SEMI_UNIQUE profile
causes exactly one request and a null top-values field. -/
theorem sample_values_spec (col : Column α) (total_nodes : Nat) :
    (((analyzeColumn col total_nodes).sample_categorical_values).isSome ↔
      (analyzeColumn col total_nodes).type = .CATEGORICAL ∨
      (analyzeColumn col total_nodes).type = .HIGHLY_CATEGORICAL) ∧
    (∀ l, (analyzeColumn col total_nodes).sample_categorical_values = some l →
      l.length ≤ 10) ∧
    (((getPropertyStatsCypher col).1.sample_categorical_values).isSome ↔
      (getPropertyStatsCypher col).1.type = .CATEGORICAL ∨
      (getPropertyStatsCypher col).1.type = .HIGHLY_CATEGORICAL) ∧
    (∀ l, (getPropertyStatsCypher col).1.sample_categorical_values = some l →
      l.length ≤ 10) ∧
    ((getPropertyStatsCypher col).2 =
      if (getPropertyStatsCypher col).1.type = .CATEGORICAL ∨
         (getPropertyStatsCypher col).1.type = .HIGHLY_CATEGORICAL
       then 2 else 1) ∧
    (((getPropertyStatsCypher col).1.type = .UNIQUE ∨
      (getPropertyStatsCypher col).1.type = .SEMI_UNIQUE) →
      (getPropertyStatsCypher col).2 = 1 ∧
      (getPropertyStatsCypher col).1.sample_categorical_values = none) := by
  by_cases h : fromUniqueRatio ((nunique col : Rat) / (total_nodes : Rat)) =
      .CATEGORICAL ∨
      fromUniqueRatio ((nunique col : Rat) / (total_nodes : Rat)) =
      .HIGHLY_CATEGORICAL <;>
    by_cases h2 : fromUniqueRatioF
        (cyDiv (nunique col : Rat) (col.length : Rat)) = .CATEGORICAL ∨
      fromUniqueRatioF
        (cyDiv (nunique col : Rat) (col.length : Rat)) = .HIGHLY_CATEGORICAL <;>
    simp [analyzeColumn, getPropertyStatsCypher, h, h2,
      topTenValueCounts_length_le]
  all_goals rcases h2 with h2 | h2 <;> simp [h2]

/-- Witness for C3: the hypothesis of the length bound discharged on a
concrete categorical column whose sample list is `[(1, 2)]`. -/
theorem sample_values_spec_witness :
    (analyzeColumn ([some 1, some 1, none] : Column Nat)
      3).sample_categorical_values = some [(1, 2)] ∧
    [((1:Nat), 2)].length ≤ 10 := by
  have hs : (analyzeColumn ([some 1, some 1, none] : Column Nat)
      3).sample_categorical_values = some [(1, 2)] := by
    norm_num [analyzeColumn, fromUniqueRatio, nunique, nonNullValues,
      nullCount, topTenValueCounts, valueCounts, sortByCountDesc,
      insertByCountDesc, List.dedup, List.filterMap, List.countP_cons]
  exact ⟨hs,
    (sample_values_spec ([some 1, some 1, none] : Column Nat) 3).2.1
      [(1, 2)] hs⟩

/-- C4 counterexample: a given sample size of 0 (smaller than the
population 1) does not produce a sampling query — Python truthiness
treats `sample_size=0` as absent, and likewise `limit=0`; and a sample
size ≥ population with an applicable limit falls to the LIMIT query, not
to the full population. -/
theorem buildExtractionQuery_counterexample :
    buildExtractionQuery "Person" 1 none (some 0) = .allNodes "Person" ∧
    buildExtractionQuery "Person" 1 none (some 0) ≠
      .randomSample "Person" 0 ∧
    buildExtractionQuery "Person" 1 (some 0) none = .allNodes "Person" ∧
    buildExtractionQuery "Person" 5 (some 2) (some 7) = .firstN "Person" 2 := by
  refine ⟨by decide, by decide, by decide, by decide⟩

/-- C4 (amended): if a nonzero sample size is given and is smaller than
the population, the built query randomly samples that many entities;
else if a nonzero limit is given and is smaller than the population, it
takes the first `limit` entities; else it selects the entire population —
in particular a sample size ≥ the population falls back to the whole
population when no limit applies. -/
theorem buildExtractionQuery_spec (label : String) (total_count : Nat)
    (limit sample_size : Option Nat) :
    (∀ s, sample_size = some s → 0 < s → s < total_count →
      buildExtractionQuery label total_count limit sample_size =
        .randomSample label s) ∧
    ((¬ ∃ s, sample_size = some s ∧ 0 < s ∧ s < total_count) →
      ∀ l, limit = some l → 0 < l → l < total_count →
        buildExtractionQuery label total_count limit sample_size =
          .firstN label l) ∧
    ((¬ ∃ s, sample_size = some s ∧ 0 < s ∧ s < total_count) →
     (¬ ∃ l, limit = some l ∧ 0 < l ∧ l < total_count) →
      buildExtractionQuery label total_count limit sample_size =
        .allNodes label) ∧
    (∀ s, sample_size = some s → total_count ≤ s →
     (¬ ∃ l, limit = some l ∧ 0 < l ∧ l < total_count) →
      buildExtractionQuery label total_count limit sample_size =
        .allNodes label) := by
  have sguard : (¬ ∃ s, sample_size = some s ∧ 0 < s ∧ s < total_count) →
      (pyTruthy sample_size &&
        decide (sample_size.getD 0 < total_count)) = false := by
    intro hns
    rcases sample_size with _ | s
    · rfl
    · by_contra hc
      simp [pyTruthy] at hc
      exact hns ⟨s, rfl, Nat.pos_of_ne_zero hc.1, hc.2⟩
  have lguard : (¬ ∃ l, limit = some l ∧ 0 < l ∧ l < total_count) →
      (pyTruthy limit && decide (limit.getD 0 < total_count)) = false := by
    intro hnl
    rcases limit with _ | l
    · rfl
    · by_contra hc
      simp [pyTruthy] at hc
      exact hnl ⟨l, rfl, Nat.pos_of_ne_zero hc.1, hc.2⟩
  refine ⟨?_, ?_, ?_, ?_⟩
  · rintro s rfl hs hlt
    have h1 : (s != 0) = true := by simpa using Nat.pos_iff_ne_zero.mp hs
    simp [buildExtractionQuery, pyTruthy, h1, hlt]
  · intro hns l hl hpos hlt
    subst hl
    have h1 : (l != 0) = true := by simpa using Nat.pos_iff_ne_zero.mp hpos
    unfold buildExtractionQuery
    rw [if_neg (by rw [sguard hns]; simp),
      if_pos (by simp [pyTruthy, h1, hlt])]
    rfl
  · intro hns hnl
    unfold buildExtractionQuery
    rw [if_neg (by rw [sguard hns]; simp), if_neg (by rw [lguard hnl]; simp)]
  · rintro s rfl hge hnl
    have hns : ¬ ∃ s', (some s : Option Nat) = some s' ∧ 0 < s' ∧
        s' < total_count := by
      rintro ⟨s', hs', _, hlt⟩
      cases hs'
      omega
    unfold buildExtractionQuery
    rw [if_neg (by rw [sguard hns]; simp), if_neg (by rw [lguard hnl]; simp)]

/-- Witness for C4: a nonzero in-range sample size yields the sampling
query. -/
theorem buildExtractionQuery_spec_witness :
    buildExtractionQuery "Person" 10 none (some 3) =
      .randomSample "Person" 3 :=
  (buildExtractionQuery_spec "Person" 10 none (some 3)).1 3 rfl
    (by decide) (by decide)

/-- Membership in the PropertyNode set after one attribute's merges. -/
theorem mem_processProperty_propNodes (p : String) (es : List Entity)
    (g : GraphState) (x : String × String) :
    x ∈ (processProperty g p es).propNodes ↔
      x ∈ g.propNodes ∨
        ∃ e ∈ es, ∃ v, e.props.lookup p = some v ∧ x = (p, v) := by
  induction es generalizing g with
  | nil => simp [processProperty]
  | cons e es ih =>
    have h : processProperty g p (e :: es) =
        processProperty (mergeEntity p g e) p es := rfl
    rw [h, ih]
    cases hl : e.props.lookup p with
    | none => simp [mergeEntity, hl]
    | some v =>
      simp only [mergeEntity, hl, Finset.mem_insert, List.mem_cons]
      constructor
      · rintro ((rfl | hx) | ⟨e', he', v', hv', rfl⟩)
        · exact Or.inr ⟨e, Or.inl rfl, v, hl, rfl⟩
        · exact Or.inl hx
        · exact Or.inr ⟨e', Or.inr he', v', hv', rfl⟩
      · rintro (hx | ⟨e', (rfl | he'), v', hv', rfl⟩)
        · exact Or.inl (Or.inr hx)
        · rw [hl] at hv'
          cases hv'
          exact Or.inl (Or.inl rfl)
        · exact Or.inr ⟨e', he', v', hv', rfl⟩

/-- Membership in the HAS edge set after one attribute's merges. -/
theorem mem_processProperty_rels (p : String) (es : List Entity)
    (g : GraphState) (x : Nat × String × String) :
    x ∈ (processProperty g p es).rels ↔
      x ∈ g.rels ∨
        ∃ e ∈ es, ∃ v, e.props.lookup p = some v ∧ x = (e.id, p, v) := by
  induction es generalizing g with
  | nil => simp [processProperty]
  | cons e es ih =>
    have h : processProperty g p (e :: es) =
        processProperty (mergeEntity p g e) p es := rfl
    rw [h, ih]
    cases hl : e.props.lookup p with
    | none => simp [mergeEntity, hl]
    | some v =>
      simp only [mergeEntity, hl, Finset.mem_insert, List.mem_cons]
      constructor
      · rintro ((rfl | hx) | ⟨e', he', v', hv', rfl⟩)
        · exact Or.inr ⟨e, Or.inl rfl, v, hl, rfl⟩
        · exact Or.inl hx
        · exact Or.inr ⟨e', Or.inr he', v', hv', rfl⟩
      · rintro (hx | ⟨e', (rfl | he'), v', hv', rfl⟩)
        · exact Or.inl (Or.inr hx)
        · rw [hl] at hv'
          cases hv'
          exact Or.inl (Or.inl rfl)
        · exact Or.inr ⟨e', he', v', hv', rfl⟩

/-- Membership in the PropertyNode set after a full materialization run. -/
theorem mem_createPropertyNodes_propNodes (ps : List String)
    (es : List Entity) (g : GraphState) (x : String × String) :
    x ∈ (createPropertyNodes g ps es).propNodes ↔
      x ∈ g.propNodes ∨
        ∃ p ∈ ps, ∃ e ∈ es, ∃ v, e.props.lookup p = some v ∧
          x = (p, v) := by
  induction ps generalizing g with
  | nil => simp [createPropertyNodes]
  | cons p ps ih =>
    have h : createPropertyNodes g (p :: ps) es =
        createPropertyNodes (processProperty g p es) ps es := rfl
    rw [h, ih, mem_processProperty_propNodes]
    simp only [List.mem_cons]
    constructor
    · rintro ((hx | ⟨e, he, v, hv, rfl⟩) | ⟨p', hp', rest⟩)
      · exact Or.inl hx
      · exact Or.inr ⟨p, Or.inl rfl, e, he, v, hv, rfl⟩
      · exact Or.inr ⟨p', Or.inr hp', rest⟩
    · rintro (hx | ⟨p', (rfl | hp'), rest⟩)
      · exact Or.inl (Or.inl hx)
      · exact Or.inl (Or.inr rest)
      · exact Or.inr ⟨p', hp', rest⟩

/-- Membership in the HAS edge set after a full materialization run. -/
theorem mem_createPropertyNodes_rels (ps : List String)
    (es : List Entity) (g : GraphState) (x : Nat × String × String) :
    x ∈ (createPropertyNodes g ps es).rels ↔
      x ∈ g.rels ∨
        ∃ p ∈ ps, ∃ e ∈ es, ∃ v, e.props.lookup p = some v ∧
          x = (e.id, p, v) := by
  induction ps generalizing g with
  | nil => simp [createPropertyNodes]
  | cons p ps ih =>
    have h : createPropertyNodes g (p :: ps) es =
        createPropertyNodes (processProperty g p es) ps es := rfl
    rw [h, ih, mem_processProperty_rels]
    simp only [List.mem_cons]
    constructor
    · rintro ((hx | ⟨e, he, v, hv, rfl⟩) | ⟨p', hp', rest⟩)
      · exact Or.inl hx
      · exact Or.inr ⟨p, Or.inl rfl, e, he, v, hv, rfl⟩
      · exact Or.inr ⟨p', Or.inr hp', rest⟩
    · rintro (hx | ⟨p', (rfl | hp'), rest⟩)
      · exact Or.inl (Or.inl hx)
      · exact Or.inl (Or.inr rest)
      · exact Or.inr ⟨p', hp', rest⟩

/-- C5: running `create_property_nodes` a second time against an
unchanged entity population leaves the PropertyNode set and the HAS edge
set exactly as the first run left them — the merge-based materialization
is convergent, creating no duplicate node, no duplicate edge, and no
error on the repeated run (the state sets are duplicate-free by
construction and the operation is total). -/
theorem createPropertyNodes_idempotent (g : GraphState) (ps : List String)
    (es : List Entity) :
    createPropertyNodes (createPropertyNodes g ps es) ps es =
      createPropertyNodes g ps es := by
  refine GraphState.ext ?_ ?_
  · ext x
    simp only [mem_createPropertyNodes_propNodes]
    tauto
  · ext x
    simp only [mem_createPropertyNodes_rels]
    tauto

/-- C6 counterexample: with attribute "a" failing and attribute "b"
succeeding, `create_property_nodes` propagates the raised error — no
final report is produced, attribute "b"'s counts are not summed anywhere,
and no per-attribute failure report exists, although "b"'s write would
have succeeded. -/
theorem createPropertyNodesStats_counterexample :
    createPropertyNodesStats failingWrite ["a", "b"] = .error "boom" ∧
    failingWrite "b" = .ok [⟨1, 1⟩] := ⟨rfl, rfl⟩

/-- A raised write propagates out of the attribute loop unchanged. -/
theorem propertyLoop_error (f : String → Except String (List WriteRow))
    (pre : List String) (p : String) (post : List String) (e : String)
    (hpre : ∀ q ∈ pre, (f q).isOk = true) (hp : f p = .error e) :
    ∀ stats, propertyLoop f (pre ++ p :: post) stats = .error e := by
  induction pre with
  | nil =>
    intro stats
    simp [propertyLoop, hp]
  | cons q qs ih =>
    intro stats
    have hq : (f q).isOk = true := hpre q (by simp)
    have hqs : ∀ r ∈ qs, (f r).isOk = true := fun r hr => hpre r (by simp [hr])
    rcases hfq : f q with eq | rows
    · rw [hfq] at hq
      simp [Except.isOk, Except.toBool] at hq
    · rcases rows with _ | ⟨r, rest⟩ <;>
        simp [propertyLoop, hfq, ih hqs]

/-- An attribute whose write returns no rows contributes nothing and
does not stop the loop. -/
theorem propertyLoop_skip (f : String → Except String (List WriteRow))
    (pre : List String) (p : String) (post : List String)
    (hp : f p = .ok []) :
    ∀ stats, propertyLoop f (pre ++ p :: post) stats =
      propertyLoop f (pre ++ post) stats := by
  induction pre with
  | nil =>
    intro stats
    simp [propertyLoop, hp]
  | cons q qs ih =>
    intro stats
    rcases hfq : f q with eq | rows
    · simp [propertyLoop, hfq]
    · rcases rows with _ | ⟨r, rest⟩ <;> simp [propertyLoop, hfq, ih]

/-- C6 (amended): attributes are processed one at a time in order, but a
batch write that raises aborts the run — the error propagates and the
remaining attributes are not processed and no report is produced; only a
write returning zero result rows is tolerated: that attribute contributes
nothing and processing continues as if it were absent. -/
theorem createPropertyNodesStats_spec
    (f : String → Except String (List WriteRow))
    (pre : List String) (p : String) (post : List String) :
    (∀ e, (∀ q ∈ pre, (f q).isOk = true) → f p = .error e →
      createPropertyNodesStats f (pre ++ p :: post) = .error e) ∧
    (f p = .ok [] →
      createPropertyNodesStats f (pre ++ p :: post) =
        createPropertyNodesStats f (pre ++ post)) :=
  ⟨fun e hpre hp => propertyLoop_error f pre p post e hpre hp (0, 0),
   fun hp => propertyLoop_skip f pre p post hp (0, 0)⟩

/-- Witness for C6: the abort behaviour instantiated on the concrete
failing store, next to the report of a run without the failing
attribute. -/
theorem createPropertyNodesStats_spec_witness :
    createPropertyNodesStats failingWrite ["b", "a", "b"] = .error "boom" ∧
    createPropertyNodesStats failingWrite ["b"] = .ok (1, 1) := by
  constructor
  · refine (createPropertyNodesStats_spec failingWrite ["b"] "a" ["b"]).1
      "boom" ?_ rfl
    intro q hq
    simp only [List.mem_singleton] at hq
    subst hq
    rfl
  · rfl

/-- Filtering a name out of the catalog leaves no view under it. -/
theorem countP_filter_ne_name (name : String) (l : List (String × Nat × Nat)) :
    (l.filter (fun v => v.1 != name)).countP (fun v => v.1 == name) = 0 := by
  rw [List.countP_eq_zero]
  intro v hv
  have := (List.mem_filter.mp hv).2
  simpa using this

/-- A catalog with no view under a name counts zero views under it. -/
theorem countP_eq_zero_of_not_any (name : String)
    (l : List (String × Nat × Nat))
    (h : l.any (fun v => v.1 == name) = false) :
    l.countP (fun v => v.1 == name) = 0 := by
  rw [List.countP_eq_zero]
  intro v hv
  simp only [List.any_eq_false] at h
  exact h v hv

/-- The engine's not-found message carries the marker phrase the manager
probes for. -/
theorem notFound_is_notFound : isNotFoundError notFoundMsg = true := by decide

/-- C8: creating a named view — by either manager — when any state holds
for its name first tears the old view down, succeeds (never
error-on-exists), and leaves exactly one view under that name, carrying
the new definition's node and edge counts. -/
theorem createGdsProjection_replaces (name : String) (counts : Nat × Nat)
    (e : GdsEngine) :
    (∃ e', createGdsProjection name counts e = .ok (e', (name, counts)) ∧
      e'.views.countP (fun v => v.1 == name) = 1 ∧
      e'.views.lookup name = some counts) ∧
    (∃ e'', mgrCreateCypherProjection name counts e =
        .ok (e'', (name, counts)) ∧
      e''.views.countP (fun v => v.1 == name) = 1 ∧
      e''.views.lookup name = some counts) := by
  rcases hany : e.views.any (fun v => v.1 == name) with _ | _
  · refine ⟨⟨⟨(name, counts) :: e.views⟩, ?_, ?_, ?_⟩,
      ⟨⟨(name, counts) :: e.views⟩, ?_, ?_, ?_⟩⟩
    · simp [createGdsProjection, matDropProjection, gdsGraphDrop, hany,
        gdsGraphProject]
    · simp [List.countP_cons, countP_eq_zero_of_not_any name e.views hany]
    · simp [List.lookup]
    · simp [mgrCreateCypherProjection, mgrDropProjection, gdsGraphDrop, hany,
        handleDropError, notFound_is_notFound, gdsGraphProject]
    · simp [List.countP_cons, countP_eq_zero_of_not_any name e.views hany]
    · simp [List.lookup]
  · refine ⟨⟨⟨(name, counts) :: e.views.filter (fun v => v.1 != name)⟩,
        ?_, ?_, ?_⟩,
      ⟨⟨(name, counts) :: e.views.filter (fun v => v.1 != name)⟩, ?_, ?_, ?_⟩⟩
    · have hno : (e.views.filter (fun v => v.1 != name)).any
          (fun v => v.1 == name) = false := by
        simp only [List.any_eq_false]
        intro v hv
        have := (List.mem_filter.mp hv).2
        simpa using this
      simp [createGdsProjection, matDropProjection, gdsGraphDrop, hany,
        gdsGraphProject, hno]
    · simp [List.countP_cons, countP_filter_ne_name]
    · simp [List.lookup]
    · have hno : (e.views.filter (fun v => v.1 != name)).any
          (fun v => v.1 == name) = false := by
        simp only [List.any_eq_false]
        intro v hv
        have := (List.mem_filter.mp hv).2
        simpa using this
      simp [mgrCreateCypherProjection, mgrDropProjection, gdsGraphDrop, hany,
        gdsGraphProject, hno]
    · simp [List.countP_cons, countP_filter_ne_name]
    · simp [List.lookup]

/-- C9: `drop_projection` returns `False` — instead of raising — exactly
when the engine reports the view does not exist (dropping an existing
view returns `True`), re-raises any engine error not carrying the
not-found marker unmodified, and `get_projection_info` returns `None`
precisely when no view with the configured name is listed. -/
theorem viewNotFound_spec (name : String) (e : GdsEngine) :
    ((∀ v ∈ e.views, v.1 ≠ name) →
      mgrDropProjection name e = .ok (e, false)) ∧
    ((∃ v ∈ e.views, v.1 = name) →
      ∃ e', mgrDropProjection name e = .ok (e', true)) ∧
    (∀ msg, isNotFoundError msg = false →
      handleDropError msg = .error msg) ∧
    (getProjectionInfo name e = none ↔ ∀ v ∈ e.views, v.1 ≠ name) := by
  refine ⟨?_, ?_, ?_, ?_⟩
  · intro hno
    have hany : e.views.any (fun v => v.1 == name) = false := by
      simp only [List.any_eq_false]
      intro v hv
      simpa using hno v hv
    simp [mgrDropProjection, gdsGraphDrop, hany, handleDropError,
      notFound_is_notFound]
  · rintro ⟨v, hv, hname⟩
    have hany : e.views.any (fun v => v.1 == name) = true := by
      rw [List.any_eq_true]
      exact ⟨v, hv, by simp [hname]⟩
    exact ⟨⟨e.views.filter (fun v => v.1 != name)⟩,
      by simp [mgrDropProjection, gdsGraphDrop, hany]⟩
  · intro msg h
    simp [handleDropError, h]
  · rw [getProjectionInfo, listProjections, List.find?_eq_none]
    constructor
    · intro h v hv
      simpa using h v hv
    · intro h v hv
      simpa using h v hv

/-- Witness for C9: dropping from an empty catalog reports `False`
without raising, and a non-marker error is re-raised as itself. -/
theorem viewNotFound_spec_witness :
    mgrDropProjection "g" ⟨[]⟩ = .ok (⟨[]⟩, false) ∧
    handleDropError "boom" = .error "boom" := by
  constructor
  · exact (viewNotFound_spec "g" ⟨[]⟩).1 (by simp)
  · exact (viewNotFound_spec "g" ⟨[]⟩).2.2.1 "boom" (by decide)

/-- C10: an empty entity set is not an error for classification:
`analyze_dataframe` on an empty table returns the empty summary without
computing any ratio, and the aggregate strategy on a label with zero
entities returns a well-defined summary (all counts zero, the ratio the
store's NaN, no sample values) from its single counting query rather
than failing. -/
theorem empty_input_handling :
    (∀ df : DataFrame α, df.isEmpty = true → analyzeDataframe df = []) ∧
    getPropertyStatsCypher ([] : Column α) =
      ({ unique_values := 0, total_values := 0, unique_ratio := .nan,
         type := .SEMI_UNIQUE, null_count := 0,
         sample_categorical_values := none }, 1) := by
  constructor
  · intro df h
    simp [analyzeDataframe, h]
  · simp [getPropertyStatsCypher, nunique, nonNullValues, cyDiv,
      fromUniqueRatioF, CyFloat.beq, CyFloat.blt, topTenValueCounts,
      valueCounts, sortByCountDesc]

/-- Witness for C10: the empty-frame case discharged on a concrete
zero-row table. -/
theorem empty_input_handling_witness :
    analyzeDataframe (⟨0, [("a", [])]⟩ : DataFrame Nat) = [] :=
  (empty_input_handling (α := Nat)).1 ⟨0, [("a", [])]⟩ rfl

/-- A dict key passes `isStrKey` exactly when it is a string. -/
theorem isStrKey_iff (k : PyVal) : isStrKey k = true ↔ ∃ s, k = .pstr s := by
  cases k <;> simp [isStrKey]

/-- Size-bounded simultaneous induction: on serialization-lossless
values, the convert-dump-reload pipeline is the identity, at value,
list and dict-entry level. -/
theorem roundTrip_all : ∀ n : Nat,
    (∀ x : PyVal, sizeOf x ≤ n → serOk x = true → dumpLoad x = some x) ∧
    (∀ xs : List PyVal, sizeOf xs ≤ n → serOkList xs = true →
      dumpLoadList xs = some xs) ∧
    (∀ es : List (PyVal × PyVal), sizeOf es ≤ n →
      es.all (fun kv => isStrKey kv.1) = true → serOkEntries es = true →
      dumpLoadEntries es = some es) := by
  intro n
  induction n using Nat.strong_induction_on with
  | _ n ih =>
    refine ⟨?_, ?_, ?_⟩
    · intro x hx hok
      cases x with
      | pnull => simp [dumpLoad, convertToSerializable, jsonDumps, jsonLoads]
      | pbool b => simp [dumpLoad, convertToSerializable, jsonDumps, jsonLoads]
      | pint i => simp [dumpLoad, convertToSerializable, jsonDumps, jsonLoads]
      | pfloat q => simp [dumpLoad, convertToSerializable, jsonDumps, jsonLoads]
      | pstr s => simp [dumpLoad, convertToSerializable, jsonDumps, jsonLoads]
      | ptuple xs => simp [serOk] at hok
      | plist xs =>
        have hsp : sizeOf (PyVal.plist xs) = 1 + sizeOf xs := by simp
        have hsz : sizeOf xs < n := by omega
        have hQ := (ih (sizeOf xs) hsz).2.1 xs le_rfl
          (by simpa [serOk] using hok)
        rw [dumpLoadList] at hQ
        obtain ⟨js, hjs, hload⟩ := Option.map_eq_some'.mp hQ
        simp [dumpLoad, convertToSerializable, jsonDumps, hjs, jsonLoads, hload]
      | pdict es =>
        have hsp : sizeOf (PyVal.pdict es) = 1 + sizeOf es := by simp
        have hsz : sizeOf es < n := by omega
        simp only [serOk, Bool.and_eq_true] at hok
        obtain ⟨⟨hkeys, _⟩, hents⟩ := hok
        have hR := (ih (sizeOf es) hsz).2.2 es le_rfl hkeys hents
        rw [dumpLoadEntries] at hR
        obtain ⟨js, hjs, hload⟩ := Option.map_eq_some'.mp hR
        simp [dumpLoad, convertToSerializable, jsonDumps, hjs, jsonLoads, hload]
    · intro xs hxs hok
      cases xs with
      | nil => simp [dumpLoadList, convertList, dumpsList, loadsList]
      | cons x rest =>
        have hsp : sizeOf (x :: rest) = 1 + sizeOf x + sizeOf rest := by simp
        have hszx : sizeOf x < n := by
          have h2 : 1 ≤ sizeOf rest := by cases rest <;> simp <;> omega
          omega
        have hszr : sizeOf rest < n := by
          have h1 : 1 ≤ sizeOf x := by cases x <;> simp <;> omega
          omega
        simp only [serOkList, Bool.and_eq_true] at hok
        have hP := (ih (sizeOf x) hszx).1 x le_rfl hok.1
        rw [dumpLoad] at hP
        obtain ⟨j, hj, hlj⟩ := Option.map_eq_some'.mp hP
        have hQ := (ih (sizeOf rest) hszr).2.1 rest le_rfl hok.2
        rw [dumpLoadList] at hQ
        obtain ⟨js, hjs, hljs⟩ := Option.map_eq_some'.mp hQ
        simp [dumpLoadList, convertList, dumpsList, hj, hjs, loadsList,
          hlj, hljs]
    · intro es hes hkeys hok
      cases es with
      | nil => simp [dumpLoadEntries, convertEntries, dumpsEntries, loadsEntries]
      | cons kv rest =>
        obtain ⟨k, v⟩ := kv
        simp only [List.all_cons, Bool.and_eq_true] at hkeys
        obtain ⟨s, rfl⟩ := (isStrKey_iff k).mp hkeys.1
        have hsp : sizeOf ((PyVal.pstr s, v) :: rest) =
            1 + (1 + sizeOf (PyVal.pstr s) + sizeOf v) + sizeOf rest := by
          simp
        have hszv : sizeOf v < n := by
          have h1 : 1 ≤ sizeOf (PyVal.pstr s) := by simp
          have h2 : 1 ≤ sizeOf rest := by cases rest <;> simp <;> omega
          omega
        have hszr : sizeOf rest < n := by
          have h1 : 1 ≤ sizeOf (PyVal.pstr s) := by simp
          have h2 : 1 ≤ sizeOf v := by cases v <;> simp <;> omega
          omega
        simp only [serOkEntries, Bool.and_eq_true] at hok
        have hP := (ih (sizeOf v) hszv).1 v le_rfl hok.1
        rw [dumpLoad] at hP
        obtain ⟨jv, hjv, hljv⟩ := Option.map_eq_some'.mp hP
        have hR := (ih (sizeOf rest) hszr).2.2 rest le_rfl hkeys.2 hok.2
        rw [dumpLoadEntries] at hR
        obtain ⟨jrest, hjrest, hljrest⟩ := Option.map_eq_some'.mp hR
        simp [dumpLoadEntries, convertEntries, dumpsEntries, jsonKeyStr,
          pyStr, hjv, hjrest, loadsEntries, hljv, hljrest]

/-- Serialization-lossless values survive convert-dump-reload intact. -/
theorem dumpLoad_of_serOk (x : PyVal) (hx : serOk x = true) :
    dumpLoad x = some x :=
  (roundTrip_all (sizeOf x)).1 x le_rfl hx

/-- C7 counterexample: a results table whose categorical sample values
are keyed by the integer 1 reloads with that key stringified to "1" —
the reloaded structure is not equal to the saved one, so the round trip
is not the identity on every classification results table. -/
theorem saveLoad_counterexample :
    (saveAnalysisResults intKeyedResults (.pdict []) "t").map
      (fun j => dictLookup (loadAnalysisResults j) "results") =
      some (some intKeyedResultsLoaded) ∧
    intKeyedResultsLoaded ≠ intKeyedResults := by
  have h1 : toString (1 : Int) = "1" := rfl
  constructor
  · simp [saveAnalysisResults, loadAnalysisResults, intKeyedResults,
      intKeyedResultsLoaded, convertToSerializable, convertEntries,
      convertList, pyStr, h1, jsonDumps, dumpsEntries, dumpsList, jsonKeyStr,
      jsonLoads, loadsEntries, loadsList, dictLookup, entriesLookup]
  · simp [intKeyedResults, intKeyedResultsLoaded]

/-- C7 (amended): saving a classification results table and reloading
the written record reproduces the identical label → attribute → profile
structure, provided every dictionary in the table (and configuration)
has distinct string keys and no tuple values; non-string keys — such as
numeric sample values — are stringified on save, as the counterexample
shows. -/
theorem saveLoad_roundtrip (results config : PyVal) (timestamp : String)
    (hres : serOk results = true) (hcfg : serOk config = true) :
    ∃ j, saveAnalysisResults results config timestamp = some j ∧
      dictLookup (loadAnalysisResults j) "results" = some results := by
  have hdata : serOk (.pdict
      [(.pstr "metadata", .pdict
          [(.pstr "timestamp", .pstr timestamp), (.pstr "config", config)]),
       (.pstr "results", results)]) = true := by
    simp [serOk, serOkEntries, isStrKey, dictKeyStrs, pyStr, List.dedup,
      hres, hcfg]
  have h := dumpLoad_of_serOk _ hdata
  rw [dumpLoad] at h
  obtain ⟨j, hj, hload⟩ := Option.map_eq_some'.mp h
  refine ⟨j, hj, ?_⟩
  simp only [loadAnalysisResults]
  rw [hload]
  simp [dictLookup, entriesLookup]

/-- Witness for C7: the round trip discharged on a concrete one-label
string-keyed table. -/
theorem saveLoad_roundtrip_witness :
    ∃ j, saveAnalysisResults (.pdict [(.pstr "Person", .pint 3)])
        (.pdict []) "2024-01-01" = some j ∧
      dictLookup (loadAnalysisResults j) "results" =
        some (.pdict [(.pstr "Person", .pint 3)]) :=
  saveLoad_roundtrip _ _ _
    (by simp [serOk, serOkEntries, isStrKey, dictKeyStrs, pyStr, List.dedup])
    (by simp [serOk, serOkEntries, dictKeyStrs, List.dedup])

end EntityMatching
